import Mathlib

namespace DeviceMapper

/-! A shallow embedding of `src/driver/device-mapper/dm.c` (the device-mapper
    core, Sistina 2001).  Machine pointers are modelled by explicit
    identifiers, the unsigned `offset_t` key type by `WithTop Nat` (the
    `(offset_t) -1` padding value becomes `⊤`, which compares above every
    genuine sector), the `atomic_t` pending counter by `Int`, and errno
    constants by their usual positive values, returned negated as in the
    source. -/

def MAX_DEVICES : Nat := 64
def ENXIO : Int := 6
def EPERM : Int := 1
def EINVAL : Int := 22
def ENOMEM : Int := 12
def BLOCK_SIZE : Nat := 1024
def READ : Nat := 0

/-- Sector keys (`offset_t`): `⊤` models the `(offset_t) -1` padding. -/
abbrev Key := WithTop Nat

/-- `MINOR(dev)`: the low byte of a device number (the driver has no
    partition bits). -/
def kdev_minor (dev : Nat) : Nat := dev % 256

/-- A `b_end_io` completion-function pointer: either the driver's
    `dec_pending` trampoline or some original completion function of the
    submitter, identified by a number. -/
inductive EndFn where
  | trampoline
  | fnptr (n : Nat)
deriving DecidableEq

/-- A `b_private` completion-context pointer: null, a pointer to an
    `io_hook` in the hook heap, or some opaque submitter context. -/
inductive Priv where
  | null
  | hookPtr (hid : Nat)
  | ptr (n : Nat)
deriving DecidableEq

/-- `struct buffer_head`, restricted to the fields `dm.c` reads or writes. -/
structure BufferHead where
  b_blocknr : Nat := 0
  b_rdev : Nat := 0
  b_size : Nat := 0
  b_rsector : Nat := 0
  b_end_io : EndFn := EndFn.fnptr 0
  b_private : Priv := Priv.null
deriving DecidableEq

/-- `struct target_type`: the feature flags reduced to the only flag the
    core tests (`TF_BMAP`), the `map` function (which may rewrite the
    buffer head and returns the source's signed result code), and the
    optional `err` function (`true` models a nonzero RETRY return). -/
structure target_type where
  tf_bmap : Bool
  map : BufferHead → Nat → Int × BufferHead
  err : Option (BufferHead → Nat → Bool)

/-- `struct target`: one entry of the table's target array (its private
    state is folded into the closures of its type's functions). -/
structure target where
  type : target_type

/-- `struct dm_table`.  `num_targets` is `highs.length`; the target array is
    total (`Nat → target`) as a C array access is; `pending` is the atomic
    in-flight counter; the btree index over `highs` is recomputed from
    `highs` and `depth` by `nodeKey` below. -/
structure dm_table where
  highs : List Nat
  targets : Nat → target
  hardsect_size : Nat
  pending : Int
  depth : Nat

/-- `struct deferred_io` (the `next` link becomes the list structure). -/
structure deferred_io where
  bh : BufferHead
  rw : Nat

/-- `struct mapped_device`: the minor of `md->dev`, the open-handle count,
    the `DM_ACTIVE` bit of `md->state`, the bound table and the deferred
    list. -/
structure mapped_device where
  dev_minor : Nat
  use_count : Nat
  dm_active : Bool
  map : Option dm_table
  deferred : List deferred_io

/- ------------------------------------------------------------------ -/
/- The btree index and `__find_node`                                   -/
/- ------------------------------------------------------------------ -/

/-- The key stored at flat position `i` of the leaf level: `highs[i]` when
    `i` addresses a real target, and the `(offset_t) -1` padding (`⊤`) past
    the end, as the table loader pads partially filled nodes. -/
def leafKey (highs : List Nat) (i : Nat) : Key :=
  match highs[i]? with
  | some h => (h : Key)
  | none => ⊤

/-- Descend `r` levels through rightmost children (`get_child(n, K)`). -/
def rightmost (K : Nat) : Nat → Nat → Nat
  | 0, n => n
  | r+1, n => rightmost K r (n * (K+1) + K)

/-- Modelled from the spec: the btree index over `highs` built by the table
    loader (`setup_btree_index`/`high` of the table code, which is not among
    the repository's files; the spec describes "a fixed-fanout (K keys per
    node) search tree over the sorted `highs`").  `nodeKey K highs r n k` is
    key `k` of node `n` at distance `r` above the leaf level: at a leaf it
    is the flat `highs` entry, and at an internal node it is the high of the
    rightmost leaf of the subtree under child `k`, i.e. the largest sector
    owned by that subtree (`⊤` where the subtree is past the last target). -/
def nodeKey (K : Nat) (highs : List Nat) : Nat → Nat → Nat → Key
  | 0, n, k => leafKey highs (n * K + k)
  | r+1, n, k => leafKey highs (K * rightmost K r (n * (K+1) + k) + (K - 1))

/-- The inner loop of `__find_node`: `for (k = 0; k < KEYS_PER_NODE; k++)
    if (node[k] >= bh->b_rsector) break;` — scan `fuel` keys starting at
    `j`, returning the first with `s ≤ key`, or one past the last. -/
def scanFrom (s : Nat) (f : Nat → Key) : Nat → Nat → Nat
  | 0, j => j
  | fuel+1, j => if (s : Key) ≤ f j then j else scanFrom s f fuel (j+1)

/-- Scan all `K` keys of a node from position 0. -/
def scanNode (K : Nat) (s : Nat) (f : Nat → Key) : Nat :=
  scanFrom s f K 0

/-- The outer loop of `__find_node`, by the number of levels still to
    visit: `n = get_child(n, k); node = get_node(t, l, n);` then the key
    scan; after the last level the flat position is `KEYS_PER_NODE * n + k`.
    A node at level `l` of a depth-`d` table sits `d - 1 - l` levels above
    the leaves, which is the `fuel` of the recursive call that scans it. -/
def find_node_loop (K : Nat) (t : dm_table) (s : Nat) : Nat → Nat → Nat → Nat
  | 0, n, k => K * n + k
  | fuel+1, n, k =>
    find_node_loop K t s fuel (n * (K+1) + k)
      (scanNode K s (nodeKey K t.highs fuel (n * (K+1) + k)))

/-- `__find_node(t, bh)`: the btree search for the target owning
    `bh->b_rsector`, with `KEYS_PER_NODE` as the parameter `K`. -/
def __find_node (K : Nat) (t : dm_table) (bh : BufferHead) : Nat :=
  find_node_loop K t bh.b_rsector t.depth 0 0

/-- `__find_node`'s loop re-rooted at a single node: `findAt K highs s r m`
    searches the subtree of node `m`, `r` levels above the leaves. -/
def findAt (K : Nat) (highs : List Nat) (s : Nat) : Nat → Nat → Nat
  | 0, m => K * m + scanNode K s (nodeKey K highs 0 m)
  | r+1, m => findAt K highs s r
      (m * (K+1) + scanNode K s (nodeKey K highs (r+1) m))

/- ------------------------------------------------------------------ -/
/- The io_hook heap and the request/completion path                    -/
/- ------------------------------------------------------------------ -/

/-- `struct io_hook` (the `table` pointer is left implicit: the one table
    whose `pending` counter the caller passes alongside). -/
structure io_hook where
  target : target
  rw : Nat
  end_io : EndFn
  context : Priv

/-- The `io_hook` slab: slot `hid` holds a live hook or `none` (freed). -/
abbrev HookHeap := List (Option io_hook)

/-- Number of live (allocated, not yet freed) hooks. -/
def liveHooks (heap : HookHeap) : Nat :=
  heap.countP (fun o => o.isSome)

/-- What `dec_pending` did: the table's pending counter afterwards, the
    heap, the buffer head, whether the drain wait-queue was woken, and the
    completion invocation `bh->b_end_io(bh, uptodate)` it issued, if any. -/
structure dec_pending_out where
  pending : Int
  heap : HookHeap
  bh : BufferHead
  woke : Bool
  invoked : Option (EndFn × Bool)

/-- `dec_pending(bh, uptodate)`: the completion trampoline.  `pending` is
    `ih->table->pending`.  `none` models the crash of following a
    `b_private` that is not a live hook pointer. -/
def dec_pending (pending : Int) (heap : HookHeap) (bh : BufferHead)
    (uptodate : Bool) : Option dec_pending_out :=
  match bh.b_private with
  | Priv.hookPtr hid =>
    match heap.getD hid none with
    | some ih =>
      let retry : Bool :=
        if uptodate then false
        else
          match ih.target.type.err with
          | some f => f bh ih.rw
          | none => false
      if retry then
        some { pending := pending, heap := heap, bh := bh,
               woke := false, invoked := none }
      else
        some { pending := pending - 1, heap := heap.set hid none,
               bh := { bh with b_end_io := ih.end_io, b_private := ih.context },
               woke := decide (pending - 1 = 0),
               invoked := some (ih.end_io, uptodate) }
    | none => none
  | _ => none

/-- What `__map_buffer` did: its 0/1 return, the device (whose bound
    table's pending counter it may have raised), the buffer head and the
    hook heap. -/
structure map_buffer_out where
  ret : Nat
  md : mapped_device
  bh : BufferHead
  heap : HookHeap

/-- `__map_buffer(md, bh, rw, leaf)`.  `allocOk` is whether
    `alloc_io_hook()` succeeds (the slab may be exhausted); a fresh hook
    takes the next slot of the heap. -/
def __map_buffer (md : mapped_device) (bh : BufferHead) (rw : Nat)
    (leaf : Nat) (heap : HookHeap) (allocOk : Bool) : map_buffer_out :=
  match md.map with
  | none => { ret := 0, md := md, bh := bh, heap := heap }
  | some t =>
    let ti := t.targets leaf
    if allocOk = false then
      { ret := 0, md := md, bh := bh, heap := heap }
    else
      let hid := heap.length
      let ih : io_hook :=
        { target := ti, rw := rw, end_io := bh.b_end_io, context := bh.b_private }
      let heap2 := heap ++ [some ih]
      let rb := ti.type.map bh rw
      if 0 < rb.1 then
        { ret := 1,
          md := { md with map := some { t with pending := t.pending + 1 } },
          bh := { rb.2 with b_end_io := EndFn.trampoline
                            b_private := Priv.hookPtr hid },
          heap := heap2 }
      else if rb.1 = 0 then
        { ret := 1, md := md, bh := rb.2, heap := heap2.set hid none }
      else
        { ret := 0, md := md, bh := rb.2, heap := heap2.set hid none }

/-- `queue_io(md, bh, rw)`: park a request on the deferred list.
    `allocOk` is whether `alloc_deferred()` succeeds.  Returns `-ENOMEM`,
    `0` (device became active again: not deferred) or `1` (deferred), with
    the device. -/
def queue_io (md : mapped_device) (bh : BufferHead) (rw : Nat)
    (allocOk : Bool) : Int × mapped_device :=
  if allocOk = false then (-ENOMEM, md)
  else if md.dm_active then (0, md)
  else (1, { md with deferred := { bh := bh, rw := rw } :: md.deferred })

/-- `__flush_deferred_io(md)`: detach the whole deferred list in one step
    and walk it from the head, resubmitting each entry with
    `generic_make_request(c->rw, c->bh)`; the second component records
    those resubmissions in call order. -/
def __flush_deferred_io (md : mapped_device) :
    mapped_device × List (Nat × BufferHead) :=
  ({ md with deferred := [] }, md.deferred.map (fun d => (d.rw, d.bh)))

/- ------------------------------------------------------------------ -/
/- The device registry, size arrays and lifecycle operations           -/
/- ------------------------------------------------------------------ -/

/-- Point update of a C array modelled as a total function. -/
def upd {α : Type} (f : Nat → α) (i : Nat) (v : α) : Nat → α :=
  fun j => if j = i then v else f j

/-- The registry `_devs[MAX_DEVICES]` as a total map minor → slot. -/
abbrev DevMap := Nat → Option mapped_device

/-- The global `_block_size`, `_blksize_size` and `_hardsect_size` arrays. -/
structure size_arrays where
  block_size : Nat → Nat
  blksize_size : Nat → Nat
  hardsect_size : Nat → Nat

def zero_arrays : size_arrays :=
  { block_size := fun _ => 0, blksize_size := fun _ => 0,
    hardsect_size := fun _ => 0 }

/-- `__bind(md, t)`: attach the table and publish the sizes
    (`_block_size[minor] = (t->highs[t->num_targets - 1] + 1) >> 1`,
    `_blksize_size[minor] = BLOCK_SIZE`,
    `_hardsect_size[minor] = t->hardsect_size`).  `register_disk` is
    recorded by the caller. -/
def __bind (arrs : size_arrays) (md : mapped_device) (t : dm_table) :
    mapped_device × size_arrays :=
  ({ md with map := some t },
   { block_size := upd arrs.block_size md.dev_minor
       ((t.highs.getD (t.highs.length - 1) 0 + 1) >>> 1),
     blksize_size := upd arrs.blksize_size md.dev_minor BLOCK_SIZE,
     hardsect_size := upd arrs.hardsect_size md.dev_minor t.hardsect_size })

/-- What `dm_activate` did: return code, device, size arrays, whether
    `register_disk` ran (inside `__bind`), and the
    `generic_make_request` replays of `__flush_deferred_io`. -/
structure activate_out where
  ret : Int
  md : mapped_device
  arrs : size_arrays
  registered : Bool
  replayed : List (Nat × BufferHead)

/-- `dm_activate(md, table)`: refuse an empty table (`-EINVAL`) or an
    already-active device (`-EPERM`); otherwise `__bind`, set `DM_ACTIVE`,
    flush the deferred list. -/
def dm_activate (arrs : size_arrays) (md : mapped_device) (t : dm_table) :
    activate_out :=
  if t.highs.length = 0 then
    { ret := -EINVAL, md := md, arrs := arrs, registered := false, replayed := [] }
  else if md.dm_active then
    { ret := -EPERM, md := md, arrs := arrs, registered := false, replayed := [] }
  else
    let ba := __bind arrs md t
    let md2 := { ba.1 with dm_active := true }
    let fl := __flush_deferred_io md2
    { ret := 0, md := fl.1, arrs := ba.2, registered := true, replayed := fl.2 }

/-- The device part of `dm_activate` (the arrays do not feed back into it). -/
def dm_activate_md (md : mapped_device) (t : dm_table) : mapped_device :=
  (dm_activate zero_arrays md t).md

/-- `dm_deactivate(md)`: refuse an open device (`-EPERM`); otherwise detach
    the table and clear `DM_ACTIVE` (the source's fsync and double-checked
    recheck of `use_count` collapse in this sequential embedding: both
    checks read the same value). -/
def dm_deactivate (md : mapped_device) : Int × mapped_device :=
  if md.use_count ≠ 0 then (-EPERM, md)
  else (0, { md with map := none, dm_active := false })

/-- `dm_remove(md)`: refuse an open device (`-EPERM`, `unregister_device`
    always succeeds); otherwise clear the registry slot
    `_devs[MINOR(md->dev)]` and free the device.  The `DM_ACTIVE` bit is
    not consulted. -/
def dm_remove (devs : DevMap) (md : mapped_device) : Int × DevMap :=
  if md.use_count ≠ 0 then (-EPERM, devs)
  else (0, upd devs md.dev_minor none)

/-- `dm_blk_open(inode, file)`: bounds-check the minor, require an occupied
    slot and `is_active(md)`, then raise the use count. -/
def dm_blk_open (devs : DevMap) (rdev : Nat) : Int × DevMap :=
  let minor := kdev_minor rdev
  if MAX_DEVICES ≤ minor then (- ENXIO, devs)
  else
    match devs minor with
    | none => (- ENXIO, devs)
    | some md =>
      if md.dm_active = false then (- ENXIO, devs)
      else (0, upd devs minor (some { md with use_count := md.use_count + 1 }))

/-- The pending counter of the device's bound table (0 when none bound). -/
def pendingOf (md : mapped_device) : Int :=
  match md.map with
  | some t => t.pending
  | none => 0

/- ------------------------------------------------------------------ -/
/- dm_suspend and its drain window                                     -/
/- ------------------------------------------------------------------ -/

/-- An event of the world while `dm_suspend` sleeps on the drain queue:
    a completion trampoline fires for the bound table (decrementing its
    pending counter through `ih->table`), or a new submission arrives and,
    the device being inactive, is parked by `queue_io`. -/
inductive WEvent where
  | complete
  | defer (bh : BufferHead) (rw : Nat)

/-- One window event applied to the device. -/
def wstep (md : mapped_device) (e : WEvent) : mapped_device :=
  match e with
  | WEvent.complete =>
    { md with map := md.map.map (fun t => { t with pending := t.pending - 1 }) }
  | WEvent.defer bh rw => (queue_io md bh rw true).2

/-- The whole window, in arrival order. -/
def applyWindow (md : mapped_device) (w : List WEvent) : mapped_device :=
  w.foldl wstep md

/-- The deferred entries a window pushes (most recent first, as
    `queue_io` pushes at the head). -/
def windowDefers (w : List WEvent) : List deferred_io :=
  (w.filterMap (fun e =>
    match e with
    | WEvent.defer bh rw => some { bh := bh, rw := rw }
    | WEvent.complete => none)).reverse

/-- `dm_suspend(md)` against the window `w`: a no-op on a non-active
    device; otherwise clear `DM_ACTIVE` under the write lock, release it,
    let the window run, and when the drain loop's recheck under the lock
    finds `pending == 0` detach the table.  `none` models the call still
    blocked in the uninterruptible drain loop (the window did not drain
    everything). -/
def dm_suspend (md : mapped_device) (w : List WEvent) : Option mapped_device :=
  if md.dm_active = false then some md
  else
    let md2 := applyWindow { md with dm_active := false } w
    if pendingOf md2 = 0 then some { md2 with map := none } else none

/- ------------------------------------------------------------------ -/
/- The request path                                                    -/
/- ------------------------------------------------------------------ -/

/-- What `request(q, rw, bh)` did: its 0/1 return, the registry, heap and
    buffer head afterwards, and whether `buffer_IO_error(bh)` was invoked
    (the submitter saw an immediate I/O error). -/
structure request_out where
  ret : Nat
  devs : DevMap
  heap : HookHeap
  bh : BufferHead
  io_error : Bool

/-- The tail of `request` from the mapping step on (`__find_node` then
    `__map_buffer`; a zero return goes to `bad`). -/
def request_map (K : Nat) (devs : DevMap) (minor : Nat) (md : mapped_device)
    (rw : Nat) (bh : BufferHead) (heap : HookHeap) (allocOk : Bool) :
    request_out :=
  match md.map with
  | none => { ret := 0, devs := devs, heap := heap, bh := bh, io_error := true }
  | some t =>
    let mb := __map_buffer md bh rw (__find_node K t bh) heap allocOk
    if mb.ret = 0 then
      { ret := 0, devs := upd devs minor (some mb.md), heap := mb.heap,
        bh := mb.bh, io_error := true }
    else
      { ret := 1, devs := upd devs minor (some mb.md), heap := mb.heap,
        bh := mb.bh, io_error := false }

/-- `request(q, rw, bh)`: bounds-check the minor, look up the device,
    refuse when absent or table-less, defer when not `DM_ACTIVE`, else map.
    `hookAllocOk`/`deferAllocOk` are the two allocations' outcomes. -/
def request (K : Nat) (devs : DevMap) (rw : Nat) (bh : BufferHead)
    (heap : HookHeap) (hookAllocOk deferAllocOk : Bool) : request_out :=
  let minor := kdev_minor bh.b_rdev
  if MAX_DEVICES ≤ minor then
    { ret := 0, devs := devs, heap := heap, bh := bh, io_error := true }
  else
    match devs minor with
    | none => { ret := 0, devs := devs, heap := heap, bh := bh, io_error := true }
    | some md =>
      match md.map with
      | none => { ret := 0, devs := devs, heap := heap, bh := bh, io_error := true }
      | some _ =>
        if md.dm_active = false then
          let qi := queue_io md bh rw deferAllocOk
          if qi.1 < 0 then
            { ret := 0, devs := devs, heap := heap, bh := bh, io_error := true }
          else if 0 < qi.1 then
            { ret := 0, devs := upd devs minor (some qi.2), heap := heap,
              bh := bh, io_error := false }
          else request_map K devs minor qi.2 rw bh heap hookAllocOk
        else request_map K devs minor md rw bh heap hookAllocOk

/-- Fold of `queue_io` over a run of arriving requests (each allocation
    succeeding). -/
def enqueue_all (md : mapped_device) (xs : List (BufferHead × Nat)) :
    mapped_device :=
  xs.foldl (fun m a => (queue_io m a.1 a.2 true).2) md

/- ------------------------------------------------------------------ -/
/- dm_user_bmap                                                        -/
/- ------------------------------------------------------------------ -/

/-- `struct lv_bmap`: the two user-space fields of the `LV_BMAP` ioctl. -/
structure lv_bmap where
  lv_dev : Nat
  lv_block : Nat
deriving DecidableEq

/-- `dm_user_bmap(inode, lvb)`: synthesize a stub buffer head for the
    queried block, look up the target, require `TF_BMAP`, call the
    target's map function, then copy the results out with two `put_user`
    calls — both of which the source directs at `&lvb->lv_dev`.  The
    `get_user`/`put_user` fault paths are elided (copies succeed), and the
    freeing of a hook the target may have attached to the stub does not
    touch `lvb`. -/
def dm_user_bmap (K : Nat) (devs : DevMap) (blksize : Nat → Nat)
    (rdev : Nat) (lvb : lv_bmap) : Int × lv_bmap :=
  let minor := kdev_minor rdev
  if MAX_DEVICES ≤ minor then (- ENXIO, lvb)
  else
    match devs minor with
    | none => (- ENXIO, lvb)
    | some md =>
      let block := lvb.lv_block
      let bsize := blksize minor
      let bh : BufferHead :=
        { b_blocknr := block, b_rdev := rdev, b_size := bsize,
          b_rsector := block * (bsize >>> 9),
          b_end_io := EndFn.fnptr 0, b_private := Priv.null }
      if md.dm_active then
        match md.map with
        | some t =>
          let ti := t.targets (__find_node K t bh)
          if ti.type.tf_bmap then
            let rb := ti.type.map bh READ
            if rb.1 = 0 then (-EINVAL, lvb)
            else
              let lvb1 := { lvb with lv_dev := rb.2.b_rdev }
              let lvb2 := { lvb1 with
                lv_dev := rb.2.b_rsector / (rb.2.b_size >>> 9) }
              (0, lvb2)
          else (-EINVAL, lvb)
        | none => (-EINVAL, lvb)
      else (-EINVAL, lvb)

/- ------------------------------------------------------------------ -/
/- The lifecycle transition system                                     -/
/- ------------------------------------------------------------------ -/

/-- `alloc_dev`: a blank device (`memset(md, 0, ...)`). -/
def blank_device (minor : Nat) : mapped_device :=
  { dev_minor := minor, use_count := 0, dm_active := false,
    map := none, deferred := [] }

/-- A device's observable state together with the control position of an
    in-flight `dm_suspend`: `draining` is set between the clearing of
    `DM_ACTIVE` (after which the write lock is released) and the detaching
    of the table, and `removed` once `dm_remove` has freed the slot. -/
structure DevState where
  md : mapped_device
  draining : Bool
  removed : Bool

/-- The observable transitions of one device: the lifecycle calls of
    `dm.c` (with `dm_suspend` split at its lock release into the clear
    and the final detach), completions, dispatches and deferrals. -/
inductive Step : DevState → DevState → Prop where
  | blk_open (s : DevState) (h : s.removed = false)
      (ha : s.md.dm_active = true) :
      Step s ⟨{ s.md with use_count := s.md.use_count + 1 }, s.draining, false⟩
  | blk_close (s : DevState) (h : s.removed = false)
      (hu : 0 < s.md.use_count) :
      Step s ⟨{ s.md with use_count := s.md.use_count - 1 }, s.draining, false⟩
  | activate (s : DevState) (t : dm_table) (h : s.removed = false)
      (hd : s.draining = false) :
      Step s ⟨dm_activate_md s.md t, false, false⟩
  | suspend_clear (s : DevState) (h : s.removed = false)
      (hd : s.draining = false) (ha : s.md.dm_active = true) :
      Step s ⟨{ s.md with dm_active := false }, true, false⟩
  | suspend_finish (s : DevState) (h : s.removed = false)
      (hd : s.draining = true) (hp : pendingOf s.md = 0) :
      Step s ⟨{ s.md with map := none }, false, false⟩
  | io_dispatch (s : DevState) (h : s.removed = false)
      (ha : s.md.dm_active = true) :
      Step s ⟨{ s.md with
        map := s.md.map.map (fun t => { t with pending := t.pending + 1 }) },
        s.draining, false⟩
  | io_complete (s : DevState) (h : s.removed = false) :
      Step s ⟨{ s.md with
        map := s.md.map.map (fun t => { t with pending := t.pending - 1 }) },
        s.draining, false⟩
  | queue_defer (s : DevState) (bh : BufferHead) (rw : Nat)
      (h : s.removed = false) :
      Step s ⟨(queue_io s.md bh rw true).2, s.draining, false⟩
  | deactivate (s : DevState) (h : s.removed = false)
      (hd : s.draining = false) :
      Step s ⟨(dm_deactivate s.md).2, false, false⟩
  | remove (s : DevState) (h : s.removed = false)
      (hd : s.draining = false) (hu : s.md.use_count = 0) :
      Step s ⟨s.md, s.draining, true⟩

/-- States reachable from a freshly created (blank) device. -/
inductive Reachable : DevState → Prop where
  | init (minor : Nat) : Reachable ⟨blank_device minor, false, false⟩
  | step {s s2 : DevState} : Reachable s → Step s s2 → Reachable s2

/- ------------------------------------------------------------------ -/
/- Concrete instances for witnesses and counterexamples                -/
/- ------------------------------------------------------------------ -/

/-- A target whose map does nothing and reports "taken care of" (0). -/
def null_target : target :=
  { type := { tf_bmap := false, map := fun bh _ => (0, bh), err := none } }

/-- The claim's two-target table: highs 99 and 199 (depth 1, K = 2). -/
def t_two : dm_table :=
  { highs := [99, 199], targets := fun _ => null_target,
    hardsect_size := 512, pending := 0, depth := 1 }

/-- A stub buffer head addressed at sector `s`. -/
def bh_s (s : Nat) : BufferHead := { b_rsector := s }

/-- A depth-2 table (highs 10..50, K = 2) exercising an internal level. -/
def t_five : dm_table :=
  { highs := [10, 20, 30, 40, 50], targets := fun _ => null_target,
    hardsect_size := 512, pending := 0, depth := 2 }

/-- A single-target table for lifecycle scenarios. -/
def t_one : dm_table :=
  { highs := [99], targets := fun _ => null_target,
    hardsect_size := 512, pending := 0, depth := 1 }

/-- An active device (use count 0) parked in slot 5: `dm_remove` removes
    it without complaint although it is active. -/
def md_c4 : mapped_device :=
  { dev_minor := 5, use_count := 0, dm_active := true,
    map := some t_one, deferred := [] }

def devs_c4 : DevMap := upd (fun _ => none) 5 (some md_c4)

/-- A bmap-capable target: remaps the stub to device 77, sector 2468. -/
def bmap_target : target :=
  { type := { tf_bmap := true,
              map := fun bh _ => (1, { bh with b_rdev := 77, b_rsector := 2468 }),
              err := none } }

def t_bmap : dm_table :=
  { highs := [10000], targets := fun _ => bmap_target,
    hardsect_size := 512, pending := 0, depth := 1 }

/-- An active bmap-capable device in slot 3. -/
def md_bmap : mapped_device :=
  { dev_minor := 3, use_count := 0, dm_active := true,
    map := some t_bmap, deferred := [] }

def devs_bmap : DevMap := upd (fun _ => none) 3 (some md_bmap)

def blksize_bmap : Nat → Nat := fun _ => 1024

/-- The mid-drain state of the C3 counterexample: blank device 0,
    activated with `t_one`, then `dm_suspend` has cleared `DM_ACTIVE` and
    released the lock but not yet detached the table. -/
def s_drain : DevState :=
  ⟨{ dm_activate_md (blank_device 0) t_one with dm_active := false },
   true, false⟩

/-- A suspended device with two in-flight requests, for the C2 witness. -/
def md_susp : mapped_device :=
  { dev_minor := 7, use_count := 0, dm_active := true,
    map := some { t_one with pending := 2 }, deferred := [] }

/- ================================================================== -/
/- Lemmas: the btree lookup                                            -/
/- ================================================================== -/

lemma leafKey_of_lt {highs : List Nat} {i : Nat} (h : i < highs.length) :
    leafKey highs i = ((highs.getD i 0 : Nat) : Key) := by
  unfold leafKey
  rw [List.getD_eq_getElem?_getD, List.getElem?_eq_getElem h]
  rfl

lemma leafKey_of_ge {highs : List Nat} {i : Nat} (h : highs.length ≤ i) :
    leafKey highs i = ⊤ := by
  unfold leafKey
  rw [List.getElem?_eq_none h]

lemma getD_lt_of_pairwise {highs : List Nat} {a b : Nat}
    (hs : highs.Pairwise (fun x y => x < y)) (hab : a < b)
    (hb : b < highs.length) : highs.getD a 0 < highs.getD b 0 := by
  have ha : a < highs.length := lt_trans hab hb
  have := List.pairwise_iff_get.mp hs ⟨a, ha⟩ ⟨b, hb⟩ hab
  simpa [List.getD_eq_getElem?_getD, List.getElem?_eq_getElem, ha, hb] using this

lemma leafKey_mono {highs : List Nat} {a b : Nat}
    (hs : highs.Pairwise (fun x y => x < y)) (hab : a ≤ b) :
    leafKey highs a ≤ leafKey highs b := by
  by_cases hb : b < highs.length
  · have ha : a < highs.length := lt_of_le_of_lt hab hb
    rw [leafKey_of_lt ha, leafKey_of_lt hb]
    rcases Nat.eq_or_lt_of_le hab with rfl | hlt
    · exact le_refl _
    · exact WithTop.coe_le_coe.mpr (le_of_lt (getD_lt_of_pairwise hs hlt hb))
  · rw [leafKey_of_ge (le_of_not_lt hb)]
    exact le_top

lemma scanFrom_eq (s : Nat) (f : Nat → Key) :
    ∀ (fuel j j0 : Nat), j ≤ j0 → j0 < j + fuel → ((s : Key) ≤ f j0) →
      (∀ u, j ≤ u → u < j0 → ¬ (s : Key) ≤ f u) →
      scanFrom s f fuel j = j0 := by
  intro fuel
  induction fuel with
  | zero => intro j j0 h1 h2 _ _; omega
  | succ n ih =>
    intro j j0 h1 h2 hle hnone
    unfold scanFrom
    by_cases hj : (s : Key) ≤ f j
    · rw [if_pos hj]
      by_contra hne
      exact hnone j (le_refl j) (lt_of_le_of_ne h1 hne) hj
    · rw [if_neg hj]
      have hj0 : j + 1 ≤ j0 := by
        rcases Nat.eq_or_lt_of_le h1 with rfl | h
        · exact absurd hle hj
        · omega
      exact ih (j+1) j0 hj0 (by omega) hle
        (fun u hu1 hu2 => hnone u (by omega) hu2)

lemma scanFrom_all (s : Nat) (f : Nat → Key) :
    ∀ (fuel j : Nat), (∀ u, j ≤ u → u < j + fuel → ¬ (s : Key) ≤ f u) →
      scanFrom s f fuel j = j + fuel := by
  intro fuel
  induction fuel with
  | zero => intro j _; rfl
  | succ n ih =>
    intro j h
    unfold scanFrom
    rw [if_neg (h j (le_refl j) (by omega))]
    rw [ih (j+1) (fun u h1 h2 => h u (by omega) (by omega))]
    omega

lemma rightmost_succ (K : Nat) :
    ∀ (r n : Nat), rightmost K r n + 1 = (n+1) * (K+1)^r := by
  intro r
  induction r with
  | zero => intro n; simp [rightmost]
  | succ r ih =>
    intro n
    show rightmost K r (n * (K+1) + K) + 1 = (n+1) * (K+1)^(r+1)
    rw [ih (n * (K+1) + K)]
    ring

lemma nodeKey_succ {K : Nat} (highs : List Nat) (hK : 0 < K) (r n k : Nat) :
    nodeKey K highs (r+1) n k =
      leafKey highs ((n * (K+1) + k + 1) * (K * (K+1)^r) - 1) := by
  show leafKey highs (K * rightmost K r (n * (K+1) + k) + (K - 1)) = _
  congr 1
  have h := rightmost_succ K r (n * (K+1) + k)
  have h2 : (n * (K+1) + k + 1) * (K * (K+1)^r) =
      K * (rightmost K r (n * (K+1) + k) + 1) := by rw [h]; ring
  rw [h2]
  have h3 : K * (rightmost K r (n * (K+1) + k) + 1) =
      K * rightmost K r (n * (K+1) + k) + K := by ring
  omega

/-- Any half-open run of `P * (K+1)` numbers splits into `K+1` runs of `P`. -/
lemma subdivide (P : Nat) (hP : 0 < P) (X K : Nat) (hX : X < P * (K+1)) :
    ∃ k0, k0 ≤ K ∧ P * k0 ≤ X ∧ X < P * (k0 + 1) := by
  refine ⟨X / P, ?_, ?_, ?_⟩
  · have h := (Nat.div_lt_iff_lt_mul hP).mpr
      (by calc X < P * (K+1) := hX
           _ = (K+1) * P := by ring)
    omega
  · exact Nat.mul_div_le X P
  · have h1 := Nat.div_add_mod X P
    have h2 := Nat.mod_lt X hP
    have e : P * (X / P + 1) = P * (X / P) + P := by ring
    omega

lemma findAt_eq (K : Nat) (highs : List Nat) (s : Nat) (i : Nat)
    (hK : 0 < K) (hsort : highs.Pairwise (fun x y => x < y))
    (hs : (s : Key) ≤ leafKey highs i)
    (hmin : ∀ j, j < i → ¬ (s : Key) ≤ leafKey highs j) :
    ∀ r m, m * (K * (K+1)^r) ≤ i → i < (m+1) * (K * (K+1)^r) →
      findAt K highs s r m = i := by
  intro r
  induction r with
  | zero =>
    intro m hlo hhi
    simp only [pow_zero, mul_one] at hlo hhi
    have hexp : (m+1) * K = m * K + K := by ring
    rw [hexp] at hhi
    have hscan : scanNode K s (nodeKey K highs 0 m) = i - m * K := by
      unfold scanNode
      apply scanFrom_eq s _ K 0 (i - m * K) (Nat.zero_le _) (by omega)
      · show (s : Key) ≤ leafKey highs (m * K + (i - m * K))
        have e : m * K + (i - m * K) = i := by omega
        rw [e]; exact hs
      · intro u _ hu
        show ¬ (s : Key) ≤ leafKey highs (m * K + u)
        exact hmin (m * K + u) (by omega)
    show K * m + scanNode K s (nodeKey K highs 0 m) = i
    rw [hscan]
    have e2 : K * m = m * K := by ring
    omega
  | succ r ih =>
    intro m hlo hhi
    have hPpos : (0:Nat) < K * (K+1)^r := by positivity
    set P : Nat := K * (K+1)^r with hP
    have hcap : K * (K+1)^(r+1) = P * (K+1) := by rw [hP]; ring
    rw [hcap] at hlo hhi
    have hsm : (m+1) * (P * (K+1)) = m * (P * (K+1)) + P * (K+1) := by ring
    rw [hsm] at hhi
    have hX : i - m * (P * (K+1)) < P * (K+1) := by omega
    obtain ⟨k0, hk0K, hk0lo, hk0hi⟩ := subdivide P hPpos _ K hX
    have hsplit1 : (m * (K+1) + k0) * P = m * (P * (K+1)) + P * k0 := by ring
    have hsplit2 : (m * (K+1) + k0 + 1) * P = m * (P * (K+1)) + P * (k0+1) := by
      ring
    have habs_lo : (m * (K+1) + k0) * P ≤ i := by omega
    have habs_hi : i < (m * (K+1) + k0 + 1) * P := by omega
    have hkey : ∀ k, nodeKey K highs (r+1) m k =
        leafKey highs ((m * (K+1) + k + 1) * P - 1) := fun k =>
      nodeKey_succ highs hK r m k
    have hlow : ∀ u, u < k0 → ¬ (s : Key) ≤ nodeKey K highs (r+1) m u := by
      intro u hu
      rw [hkey u]
      apply hmin
      have h1 : (m * (K+1) + u + 1) * P ≤ (m * (K+1) + k0) * P :=
        Nat.mul_le_mul_right P (by omega)
      have h2 : (0:Nat) < (m * (K+1) + u + 1) * P := by positivity
      omega
    have hscan : scanNode K s (nodeKey K highs (r+1) m) = k0 := by
      rcases Nat.lt_or_ge k0 K with hlt | hge
      · unfold scanNode
        apply scanFrom_eq s _ K 0 k0 (Nat.zero_le _) (by omega)
        · rw [hkey k0]
          have hle2 : i ≤ (m * (K+1) + k0 + 1) * P - 1 :=
            Nat.le_sub_one_of_lt habs_hi
          exact le_trans hs (leafKey_mono hsort hle2)
        · intro u _ hu; exact hlow u hu
      · have hK0 : k0 = K := le_antisymm hk0K hge
        unfold scanNode
        rw [scanFrom_all s _ K 0 (fun u _ h2 => hlow u (by omega))]
        omega
    show findAt K highs s r (m * (K+1) + scanNode K s (nodeKey K highs (r+1) m))
        = i
    rw [hscan]
    exact ih (m * (K+1) + k0) habs_lo habs_hi

lemma find_node_loop_eq (K : Nat) (t : dm_table) (s : Nat) :
    ∀ (r n k : Nat), find_node_loop K t s (r+1) n k =
      findAt K t.highs s r (n * (K+1) + k) := by
  intro r
  induction r with
  | zero => intro n k; rfl
  | succ r ih =>
    intro n k
    calc find_node_loop K t s (r+1+1) n k
        = find_node_loop K t s (r+1) (n * (K+1) + k)
            (scanNode K s (nodeKey K t.highs (r+1) (n * (K+1) + k))) := rfl
      _ = findAt K t.highs s r ((n * (K+1) + k) * (K+1) +
            scanNode K s (nodeKey K t.highs (r+1) (n * (K+1) + k))) := ih _ _
      _ = findAt K t.highs s (r+1) (n * (K+1) + k) := rfl

/- ================================================================== -/
/- C1                                                                  -/
/- ================================================================== -/

/-- C1: for every table whose `highs` are strictly increasing (and whose
    btree has positive depth and capacity for all its targets, as the
    loader builds it) and every in-range sector `s = bh->b_rsector`, the
    btree lookup `__find_node` returns the unique index `i` with
    `highs[i-1] < s ≤ highs[i]` (`highs[-1] = -1`): the hypotheses say
    every entry before `i` is below `s` and `s ≤ highs[i]`, and the lookup
    returns exactly that `i` — in particular a sector equal to a boundary
    goes to the target owning that boundary. -/
theorem find_node_spec (K : Nat) (t : dm_table) (bh : BufferHead) (i : Nat)
    (hK : 0 < K) (hd : 0 < t.depth)
    (hsort : t.highs.Pairwise (fun x y => x < y))
    (hcap : t.highs.length ≤ K * (K+1) ^ (t.depth - 1))
    (hi : i < t.highs.length)
    (hs : bh.b_rsector ≤ t.highs.getD i 0)
    (hmin : ∀ j, j < i → t.highs.getD j 0 < bh.b_rsector) :
    __find_node K t bh = i := by
  have hs2 : (bh.b_rsector : Key) ≤ leafKey t.highs i := by
    rw [leafKey_of_lt hi]
    exact WithTop.coe_le_coe.mpr hs
  have hmin2 : ∀ j, j < i → ¬ (bh.b_rsector : Key) ≤ leafKey t.highs j := by
    intro j hj
    have hjlen : j < t.highs.length := lt_trans hj hi
    rw [leafKey_of_lt hjlen]
    exact not_le_of_lt (WithTop.coe_lt_coe.mpr (hmin j hj))
  obtain ⟨d, hdd⟩ : ∃ d, t.depth = d + 1 := ⟨t.depth - 1, by omega⟩
  unfold __find_node
  rw [hdd, find_node_loop_eq]
  have h00 : 0 * (K+1) + 0 = 0 := by ring
  rw [h00]
  apply findAt_eq K t.highs bh.b_rsector i hK hsort hs2 hmin2 d 0
  · simp
  · have hde : t.depth - 1 = d := by omega
    calc i < t.highs.length := hi
      _ ≤ K * (K+1) ^ (t.depth - 1) := hcap
      _ = (0+1) * (K * (K+1) ^ d) := by rw [hde]; ring

/-- C1 witness: the claim's two-target split (highs 99 and 199, K = 2,
    depth 1): lookups of 0 and 99 give index 0, of 100 and 199 index 1,
    each through `find_node_spec` with its hypotheses discharged there. -/
theorem find_node_witness :
    (0 < 2 ∧ 0 < t_two.depth ∧ t_two.highs.Pairwise (fun x y => x < y) ∧
      t_two.highs.length ≤ 2 * 3 ^ (t_two.depth - 1) ∧
      (0 : Nat) < t_two.highs.length ∧ 1 < t_two.highs.length) ∧
    __find_node 2 t_two (bh_s 0) = 0 ∧
    __find_node 2 t_two (bh_s 99) = 0 ∧
    __find_node 2 t_two (bh_s 100) = 1 ∧
    __find_node 2 t_two (bh_s 199) = 1 := by
  refine ⟨by decide, ?_, ?_, ?_, ?_⟩
  · exact find_node_spec 2 t_two (bh_s 0) 0 (by decide) (by decide)
      (by decide) (by decide) (by decide) (by decide)
      (fun j hj => absurd hj (Nat.not_lt_zero j))
  · exact find_node_spec 2 t_two (bh_s 99) 0 (by decide) (by decide)
      (by decide) (by decide) (by decide) (by decide)
      (fun j hj => absurd hj (Nat.not_lt_zero j))
  · exact find_node_spec 2 t_two (bh_s 100) 1 (by decide) (by decide)
      (by decide) (by decide) (by decide) (by decide)
      (fun j hj => by
        have hj0 : j = 0 := by omega
        subst hj0; decide)
  · exact find_node_spec 2 t_two (bh_s 199) 1 (by decide) (by decide)
      (by decide) (by decide) (by decide) (by decide)
      (fun j hj => by
        have hj0 : j = 0 := by omega
        subst hj0; decide)

/- ================================================================== -/
/- C2                                                                  -/
/- ================================================================== -/

lemma queue_io_fields (md : mapped_device) (bh : BufferHead) (rw : Nat)
    (a : Bool) :
    (queue_io md bh rw a).2.dm_active = md.dm_active ∧
    (queue_io md bh rw a).2.map = md.map ∧
    (queue_io md bh rw a).2.use_count = md.use_count ∧
    (queue_io md bh rw a).2.dev_minor = md.dev_minor := by
  unfold queue_io
  by_cases h1 : a = false
  · simp [h1]
  · by_cases h2 : md.dm_active <;> simp [h1, h2]

lemma wstep_fields (md : mapped_device) (e : WEvent) :
    (wstep md e).dm_active = md.dm_active ∧
    (wstep md e).use_count = md.use_count := by
  cases e with
  | complete => exact ⟨rfl, rfl⟩
  | defer bh rw =>
    exact ⟨(queue_io_fields md bh rw true).1, (queue_io_fields md bh rw true).2.2.1⟩

lemma applyWindow_spec :
    ∀ (w : List WEvent) (md : mapped_device), md.dm_active = false →
      (applyWindow md w).dm_active = false ∧
      (applyWindow md w).use_count = md.use_count ∧
      (applyWindow md w).deferred = windowDefers w ++ md.deferred := by
  intro w
  induction w with
  | nil => intro md h; exact ⟨h, rfl, by simp [applyWindow, windowDefers]⟩
  | cons e w ih =>
    intro md h
    have hf := wstep_fields md e
    have hrest := ih (wstep md e) (hf.1.trans h)
    have hfold : applyWindow md (e :: w) = applyWindow (wstep md e) w := rfl
    refine ⟨by rw [hfold]; exact hrest.1,
            by rw [hfold]; exact hrest.2.1.trans hf.2, ?_⟩
    rw [hfold, hrest.2.2]
    cases e with
    | complete =>
      have hd : (wstep md WEvent.complete).deferred = md.deferred := rfl
      rw [hd]
      simp [windowDefers, List.filterMap_cons]
    | defer bh rw =>
      have hd : (wstep md (WEvent.defer bh rw)).deferred =
          ({ bh := bh, rw := rw } : deferred_io) :: md.deferred := by
        show (queue_io md bh rw true).2.deferred = _
        unfold queue_io
        simp [h]
      rw [hd]
      simp [windowDefers, List.filterMap_cons]

/-- C2: `dm_suspend` on a non-active device changes nothing; on an active
    device it clears `DM_ACTIVE` before the drain wait (every state the
    window sees is inactive), and when it returns, the pending counter of
    the table it drained is zero, the device's table pointer is cleared,
    and the deferred list holds exactly the entries the window parked on
    top of the old ones. -/
theorem dm_suspend_spec (md : mapped_device) (w : List WEvent) :
    (md.dm_active = false → dm_suspend md w = some md) ∧
    (md.dm_active = true →
      (applyWindow { md with dm_active := false } w).dm_active = false ∧
      ∀ md2, dm_suspend md w = some md2 →
        md2.map = none ∧
        pendingOf (applyWindow { md with dm_active := false } w) = 0 ∧
        md2.dm_active = false ∧
        md2.use_count = md.use_count ∧
        md2.deferred = windowDefers w ++ md.deferred) := by
  constructor
  · intro h
    unfold dm_suspend
    rw [if_pos h]
  · intro h
    have hmid := applyWindow_spec w { md with dm_active := false } rfl
    refine ⟨hmid.1, ?_⟩
    intro md2 hret
    unfold dm_suspend at hret
    rw [if_neg (by simp [h])] at hret
    by_cases hp : pendingOf (applyWindow { md with dm_active := false } w) = 0
    · rw [if_pos hp] at hret
      have hmd2 : md2 =
          { applyWindow { md with dm_active := false } w with map := none } :=
        (Option.some_injective _ hret).symm
      subst hmd2
      exact ⟨rfl, hp, hmid.1, hmid.2.1, hmid.2.2⟩
    · rw [if_neg hp] at hret
      exact absurd hret (by simp)

/-- C2 witness: an active device with two requests in flight; the window
    completes both and defers one new request; `dm_suspend` returns with
    the table detached and the deferral parked. -/
theorem dm_suspend_witness :
    md_susp.dm_active = true ∧
    ∀ md2, dm_suspend md_susp
        [WEvent.complete, WEvent.defer (bh_s 5) 0, WEvent.complete] = some md2 →
      md2.map = none ∧ md2.deferred =
        [{ bh := bh_s 5, rw := 0 }] := by
  refine ⟨rfl, fun md2 hret => ?_⟩
  have h := (dm_suspend_spec md_susp
    [WEvent.complete, WEvent.defer (bh_s 5) 0, WEvent.complete]).2 rfl
  have h2 := h.2 md2 hret
  exact ⟨h2.1, h2.2.2.2.2⟩

/- ================================================================== -/
/- C3                                                                  -/
/- ================================================================== -/

lemma dm_activate_md_eq (md : mapped_device) (t : dm_table) :
    dm_activate_md md t =
      if t.highs.length = 0 then md
      else if md.dm_active then md
      else { md with map := some t, dm_active := true, deferred := [] } := by
  unfold dm_activate_md dm_activate __bind __flush_deferred_io
  by_cases h1 : t.highs.length = 0
  · simp [h1]
  · by_cases h2 : md.dm_active <;> simp [h1, h2]

/-- C3 (amended): in every reachable state of a present device, `ACTIVE`
    implies a table is bound; and outside a suspend drain window (the
    stretch of `dm_suspend` between clearing `ACTIVE` and detaching the
    table) the equivalence holds both ways, while inside such a window the
    device is always inactive yet still has its table bound. -/
theorem active_iff_bound_inv (s : DevState) (h : Reachable s) :
    s.removed = false →
      (s.md.dm_active = true → s.md.map.isSome = true) ∧
      (s.draining = true → s.md.dm_active = false ∧ s.md.map.isSome = true) ∧
      (s.draining = false → s.md.map.isSome = true → s.md.dm_active = true) := by
  induction h with
  | init minor =>
    intro _
    refine ⟨?_, ?_, ?_⟩ <;> simp [blank_device]
  | @step s s2 hr hstep ih =>
    cases hstep with
    | blk_open h ha =>
      intro _
      simpa using ih h
    | blk_close h hu =>
      intro _
      simpa using ih h
    | activate t h hd =>
      intro _
      rw [dm_activate_md_eq]
      by_cases h1 : t.highs.length = 0
      · rw [if_pos h1]
        exact ⟨(ih h).1, by simp, (ih h).2.2 ∘ fun _ => hd⟩
      · rw [if_neg h1]
        by_cases h2 : s.md.dm_active
        · rw [if_pos h2]
          exact ⟨(ih h).1, by simp, (ih h).2.2 ∘ fun _ => hd⟩
        · rw [if_neg h2]
          exact ⟨fun _ => by simp, by simp, fun _ _ => rfl⟩
    | suspend_clear h hd ha =>
      intro _
      refine ⟨fun h2 => absurd h2 (by simp), fun _ => ⟨rfl, (ih h).1 ha⟩,
        fun h2 => absurd h2 (by simp)⟩
    | suspend_finish h hd hp =>
      intro _
      have hact : s.md.dm_active = false := ((ih h).2.1 hd).1
      exact ⟨fun h2 => absurd (hact ▸ h2) (by simp),
        fun h2 => absurd h2 (by simp),
        fun _ h2 => by simp at h2⟩
    | io_dispatch h ha =>
      intro _
      simpa [Option.isSome_map] using ih h
    | io_complete h =>
      intro _
      simpa [Option.isSome_map] using ih h
    | queue_defer bh rw h =>
      intro _
      have hq := queue_io_fields s.md bh rw true
      simpa [hq.1, hq.2.1] using ih h
    | deactivate h hd =>
      intro _
      unfold dm_deactivate
      by_cases h1 : s.md.use_count ≠ 0
      · rw [if_pos h1]
        exact ⟨(ih h).1, by simp, (ih h).2.2 ∘ fun _ => hd⟩
      · rw [if_neg h1]
        exact ⟨fun h2 => absurd h2 (by simp), by simp, fun _ h2 => by simp at h2⟩
    | remove h hd hu =>
      intro h2
      exact absurd h2 (by simp)

/-- C3 witness: the invariant applied to the freshly created blank device
    (present, not draining): `ACTIVE` implies a bound table there. -/
theorem active_iff_bound_inv_witness :
    Reachable (⟨blank_device 0, false, false⟩ : DevState) ∧
      ((⟨blank_device 0, false, false⟩ : DevState).md.dm_active = true →
        (⟨blank_device 0, false, false⟩ : DevState).md.map.isSome = true) := by
  have h : Reachable (⟨blank_device 0, false, false⟩ : DevState) :=
    Reachable.init 0
  exact ⟨h, (active_iff_bound_inv _ h rfl).1⟩

/-- C3 counterexample: the state in the middle of a suspend drain —
    blank device 0 activated with `t_one`, then `dm_suspend` has cleared
    `DM_ACTIVE` and released the lock — is reachable, is not `ACTIVE`,
    yet still has its mapping table bound, refuting `ACTIVE ⇔ bound` at
    every instant. -/
theorem active_iff_bound_cex :
    Reachable s_drain ∧ s_drain.md.dm_active = false ∧
      s_drain.md.map.isSome = true := by
  refine ⟨?_, rfl, rfl⟩
  have h0 : Reachable (⟨blank_device 0, false, false⟩ : DevState) :=
    Reachable.init 0
  have h1 : Reachable
      (⟨dm_activate_md (blank_device 0) t_one, false, false⟩ : DevState) :=
    Reachable.step h0 (Step.activate _ t_one rfl rfl)
  exact Reachable.step h1 (Step.suspend_clear _ rfl rfl rfl)


/- ================================================================== -/
/- C4                                                                  -/
/- ================================================================== -/

/-- C4 counterexample: `dm_remove` succeeds on an Active device — the
    device in slot 5 is `ACTIVE` with use-count 0, yet `dm_remove` returns
    0 and empties the slot, refuting "succeeds only when not Active". -/
theorem dm_remove_cex :
    md_c4.dm_active = true ∧ md_c4.use_count = 0 ∧
      devs_c4 5 = some md_c4 ∧
      (dm_remove devs_c4 md_c4).1 = 0 ∧
      (dm_remove devs_c4 md_c4).2 5 = none :=
  ⟨rfl, rfl, rfl, rfl, rfl⟩

/-- C4 (amended): `dm_remove` fails with busy (`-EPERM`) exactly when the
    use-count is positive, leaving the registry slot occupied; with
    use-count 0 it always succeeds and frees the slot — the `ACTIVE` bit
    is never consulted (not-Active is an unenforced caller precondition). -/
theorem dm_remove_spec (devs : DevMap) (md : mapped_device)
    (hslot : devs md.dev_minor = some md) :
    (0 < md.use_count →
      dm_remove devs md = (-EPERM, devs) ∧
      (dm_remove devs md).2 md.dev_minor = some md) ∧
    (md.use_count = 0 →
      (dm_remove devs md).1 = 0 ∧
      (dm_remove devs md).2 md.dev_minor = none) := by
  constructor
  · intro h
    have hne : md.use_count ≠ 0 := by omega
    unfold dm_remove
    rw [if_pos hne]
    exact ⟨rfl, hslot⟩
  · intro h
    unfold dm_remove
    rw [if_neg (by omega : ¬ md.use_count ≠ 0)]
    exact ⟨rfl, by simp [upd]⟩

/-- C4 witness: the amended claim at the concrete slot-5 device. -/
theorem dm_remove_witness :
    devs_c4 md_c4.dev_minor = some md_c4 ∧ md_c4.use_count = 0 ∧
      (dm_remove devs_c4 md_c4).1 = 0 ∧
      (dm_remove devs_c4 md_c4).2 md_c4.dev_minor = none := by
  have h : devs_c4 md_c4.dev_minor = some md_c4 := rfl
  exact ⟨h, rfl, (dm_remove_spec devs_c4 md_c4 h).2 rfl⟩

/- ================================================================== -/
/- C5                                                                  -/
/- ================================================================== -/

/-- C5: `dm_user_bmap` evaluated at the failing input.  The active device
    in slot 3 has a `TF_BMAP` target that remaps the stub to physical
    device 77, sector 2468 (block size 1024, so 2 sectors per block).  The
    call succeeds, but both `put_user` calls of the source target
    `&lvb->lv_dev`: the caller receives the resolved block number 1234 in
    `lv_dev` — the device number 77 is overwritten and lost — and
    `lv_block` keeps its input value 100 instead of the resolved sector. -/
theorem dm_user_bmap_bug :
    dm_user_bmap 2 devs_bmap blksize_bmap 3 { lv_dev := 0, lv_block := 100 } =
      (0, { lv_dev := 1234, lv_block := 100 }) ∧
    (dm_user_bmap 2 devs_bmap blksize_bmap 3
      { lv_dev := 0, lv_block := 100 }).2.lv_dev ≠ 77 :=
  ⟨rfl, by decide⟩

/- ================================================================== -/
/- C6                                                                  -/
/- ================================================================== -/

/-- C6: `__map_buffer` on a device with a bound table: a failed hook
    allocation returns 0 (the caller raises an I/O error) with nothing
    changed; a positive map result increments the table's pending counter
    and installs the trampoline with the hook (holding the saved
    completion pair) as completion context; a zero result frees the hook
    and returns success without hooking; a negative result frees the hook
    and returns 0; and through `request` on an active device a failed
    allocation surfaces as `buffer_IO_error` with the slot — hence the
    pending counter — unchanged. -/
theorem map_buffer_spec (K : Nat) (md : mapped_device) (t : dm_table)
    (bh : BufferHead) (rw leaf : Nat) (heap : HookHeap)
    (hmap : md.map = some t) :
    (__map_buffer md bh rw leaf heap false =
      { ret := 0, md := md, bh := bh, heap := heap }) ∧
    (0 < ((t.targets leaf).type.map bh rw).1 →
      __map_buffer md bh rw leaf heap true =
        { ret := 1,
          md := { md with map := some { t with pending := t.pending + 1 } },
          bh := { ((t.targets leaf).type.map bh rw).2 with
                  b_end_io := EndFn.trampoline
                  b_private := Priv.hookPtr heap.length },
          heap := heap ++ [some { target := t.targets leaf, rw := rw,
                                  end_io := bh.b_end_io,
                                  context := bh.b_private }] }) ∧
    (((t.targets leaf).type.map bh rw).1 = 0 →
      __map_buffer md bh rw leaf heap true =
        { ret := 1, md := md, bh := ((t.targets leaf).type.map bh rw).2,
          heap := (heap ++ [some ({ target := t.targets leaf, rw := rw,
                                    end_io := bh.b_end_io,
                                    context := bh.b_private } : io_hook)]).set
                    heap.length none }) ∧
    (((t.targets leaf).type.map bh rw).1 < 0 →
      __map_buffer md bh rw leaf heap true =
        { ret := 0, md := md, bh := ((t.targets leaf).type.map bh rw).2,
          heap := (heap ++ [some ({ target := t.targets leaf, rw := rw,
                                    end_io := bh.b_end_io,
                                    context := bh.b_private } : io_hook)]).set
                    heap.length none }) ∧
    (∀ (devs : DevMap) (dAlloc : Bool),
      kdev_minor bh.b_rdev < MAX_DEVICES →
      devs (kdev_minor bh.b_rdev) = some md →
      md.dm_active = true →
      (request K devs rw bh heap false dAlloc).io_error = true ∧
      (request K devs rw bh heap false dAlloc).devs (kdev_minor bh.b_rdev) =
        some md) := by
  have halloc : ∀ lf, __map_buffer md bh rw lf heap false =
      { ret := 0, md := md, bh := bh, heap := heap } := by
    intro lf
    unfold __map_buffer
    rw [hmap]
    simp
  refine ⟨halloc leaf, ?_, ?_, ?_, ?_⟩
  · intro h
    unfold __map_buffer
    rw [hmap]
    simp only [Bool.true_eq_false, if_false, if_pos h]
  · intro h
    unfold __map_buffer
    rw [hmap]
    have hnot : ¬ 0 < ((t.targets leaf).type.map bh rw).1 := by omega
    simp only [Bool.true_eq_false, if_false, if_neg hnot, if_pos h]
  · intro h
    unfold __map_buffer
    rw [hmap]
    have hnot : ¬ 0 < ((t.targets leaf).type.map bh rw).1 := by omega
    have hne : ¬ ((t.targets leaf).type.map bh rw).1 = 0 := by omega
    simp only [Bool.true_eq_false, if_false, if_neg hnot, if_neg hne]
  · intro devs dAlloc hlt hdev hact
    unfold request
    rw [if_neg (not_le.mpr hlt), hdev]
    simp only [hmap, hact, Bool.true_eq_false, if_false]
    unfold request_map
    rw [hmap]
    simp [halloc, upd]

/-- C6 witness: pool empty (allocation fails) against the slot-3 bmap
    device: `__map_buffer` returns 0 untouched, and `request` raises
    `buffer_IO_error` with the slot (and its pending counter) unchanged;
    also the positive-result branch at the same device: pending goes to 1
    and the trampoline is installed. -/
theorem map_buffer_witness :
    md_bmap.map = some t_bmap ∧
    __map_buffer md_bmap (bh_s 0) 0 0 [] false =
      { ret := 0, md := md_bmap, bh := bh_s 0, heap := [] } ∧
    (request 2 devs_bmap 0 { bh_s 0 with b_rdev := 3 } [] false true).io_error
      = true ∧
    (0 : Int) < ((t_bmap.targets 0).type.map (bh_s 0) 0).1 ∧
    pendingOf (__map_buffer md_bmap (bh_s 0) 0 0 [] true).md = 1 ∧
    (__map_buffer md_bmap (bh_s 0) 0 0 [] true).bh.b_end_io =
      EndFn.trampoline := by
  have hmap : md_bmap.map = some t_bmap := rfl
  have h := map_buffer_spec 2 md_bmap t_bmap (bh_s 0) 0 0 [] hmap
  have hreq := map_buffer_spec 2 md_bmap t_bmap
    { bh_s 0 with b_rdev := 3 } 0 0 [] hmap
  have hpos : (0 : Int) < ((t_bmap.targets 0).type.map (bh_s 0) 0).1 := by
    decide
  refine ⟨hmap, h.1, ?_, hpos, ?_, ?_⟩
  · exact (hreq.2.2.2.2 devs_bmap true (by decide) rfl rfl).1
  · rw [h.2.1 hpos]
    rfl
  · rw [h.2.1 hpos]

/- ================================================================== -/
/- C7                                                                  -/
/- ================================================================== -/

lemma hookHeap_free_count :
    ∀ (heap : HookHeap) (hid : Nat) (ih : io_hook),
      heap.getD hid none = some ih →
      liveHooks (heap.set hid none) + 1 = liveHooks heap ∧
      (heap.set hid none).getD hid none = none := by
  intro heap
  induction heap with
  | nil =>
    intro hid ihh h
    simp [List.getD] at h
  | cons a as ih2 =>
    intro hid ihh h
    cases hid with
    | zero =>
      have ha : a = some ihh := by simpa [List.getD] using h
      subst ha
      refine ⟨?_, by simp [List.getD]⟩
      simp [liveHooks, List.countP_cons]
    | succ n =>
      have h2 : as.getD n none = some ihh := by simpa [List.getD] using h
      have h3 := ih2 n ihh h2
      refine ⟨?_, by simpa [List.getD] using h3.2⟩
      have e1 : liveHooks ((a :: as).set (n+1) none) =
          liveHooks (as.set n none) + (if a.isSome then 1 else 0) := by
        simp [liveHooks, List.countP_cons]
      have e2 : liveHooks (a :: as) =
          liveHooks as + (if a.isSome then 1 else 0) := by
        simp [liveHooks, List.countP_cons]
      omega

/-- C7: `dec_pending` on a completion whose `b_private` is a live hook:
    if the request is not uptodate and the target defines `err` and it
    returns RETRY, everything — pending counter, heap, buffer head — is
    returned unchanged with no completion invoked; otherwise the table's
    pending counter is decremented (waking the drain queue exactly when
    it reaches zero), the original completion function and context are
    restored from the hook, the hook is freed exactly once (one fewer
    live hook, its slot now empty), and the restored completion is
    invoked with the uptodate flag. -/
theorem dec_pending_spec (pending : Int) (heap : HookHeap) (bh : BufferHead)
    (uptodate : Bool) (hid : Nat) (ihk : io_hook)
    (hpriv : bh.b_private = Priv.hookPtr hid)
    (hlive : heap.getD hid none = some ihk) :
    ((uptodate = false ∧ ∃ f, ihk.target.type.err = some f ∧
        f bh ihk.rw = true) →
      dec_pending pending heap bh uptodate =
        some { pending := pending, heap := heap, bh := bh,
               woke := false, invoked := none }) ∧
    (¬ (uptodate = false ∧ ∃ f, ihk.target.type.err = some f ∧
        f bh ihk.rw = true) →
      dec_pending pending heap bh uptodate =
        some { pending := pending - 1, heap := heap.set hid none,
               bh := { bh with b_end_io := ihk.end_io
                               b_private := ihk.context },
               woke := decide (pending - 1 = 0),
               invoked := some (ihk.end_io, uptodate) } ∧
      (heap.set hid none).getD hid none = none ∧
      liveHooks (heap.set hid none) + 1 = liveHooks heap) := by
  have hfree := hookHeap_free_count heap hid ihk hlive
  constructor
  · rintro ⟨hu, f, hf, hret⟩
    subst hu
    unfold dec_pending
    simp only [hpriv, hlive, hf, hret]
    simp
  · intro hnr
    refine ⟨?_, hfree.2, hfree.1⟩
    unfold dec_pending
    simp only [hpriv, hlive]
    cases uptodate with
    | true => simp
    | false =>
      cases herr : ihk.target.type.err with
      | none => simp
      | some f =>
        have hfb : f bh ihk.rw = false := by
          cases hfb2 : f bh ihk.rw with
          | false => rfl
          | true => exact absurd ⟨rfl, f, herr, hfb2⟩ hnr
        simp [hfb]

/-- C7 witness: a live hook (slot 0) carrying original completion
    `fnptr 9` and context `ptr 4`, pending 1, uptodate true: the
    trampoline decrements to 0, wakes the drain queue, restores the saved
    completion pair, frees the hook and invokes `fnptr 9` with true. -/
theorem dec_pending_witness :
    ({ b_rsector := 0, b_private := Priv.hookPtr 0 } : BufferHead).b_private
      = Priv.hookPtr 0 ∧
    ([some { target := null_target, rw := 0, end_io := EndFn.fnptr 9,
             context := Priv.ptr 4 }] : HookHeap).getD 0 none =
      some { target := null_target, rw := 0, end_io := EndFn.fnptr 9,
             context := Priv.ptr 4 } ∧
    dec_pending 1
      [some { target := null_target, rw := 0, end_io := EndFn.fnptr 9,
              context := Priv.ptr 4 }]
      { b_rsector := 0, b_private := Priv.hookPtr 0 } true =
      some { pending := 0, heap := [none],
             bh := { b_rsector := 0, b_end_io := EndFn.fnptr 9,
                     b_private := Priv.ptr 4 },
             woke := true, invoked := some (EndFn.fnptr 9, true) } := by
  have h := dec_pending_spec 1
    [some { target := null_target, rw := 0, end_io := EndFn.fnptr 9,
            context := Priv.ptr 4 }]
    { b_rsector := 0, b_private := Priv.hookPtr 0 } true 0
    { target := null_target, rw := 0, end_io := EndFn.fnptr 9,
      context := Priv.ptr 4 } rfl rfl
  refine ⟨rfl, rfl, ?_⟩
  have h2 := (h.2 (by rintro ⟨hu, _⟩; cases hu)).1
  rw [h2]
  rfl


/- ================================================================== -/
/- C8                                                                  -/
/- ================================================================== -/

lemma enqueue_all_deferred :
    ∀ (xs : List (BufferHead × Nat)) (md : mapped_device),
      md.dm_active = false →
      (enqueue_all md xs).dm_active = false ∧
      (enqueue_all md xs).deferred =
        (xs.map (fun a => ({ bh := a.1, rw := a.2 } : deferred_io))).reverse
          ++ md.deferred := by
  intro xs
  induction xs with
  | nil => intro md h; exact ⟨h, by simp [enqueue_all]⟩
  | cons a xs ih =>
    intro md h
    have hq : (queue_io md a.1 a.2 true).2.dm_active = false ∧
        (queue_io md a.1 a.2 true).2.deferred =
          ({ bh := a.1, rw := a.2 } : deferred_io) :: md.deferred := by
      unfold queue_io
      simp [h]
    have hrest := ih (queue_io md a.1 a.2 true).2 hq.1
    have hfold : enqueue_all md (a :: xs) =
        enqueue_all (queue_io md a.1 a.2 true).2 xs := rfl
    refine ⟨by rw [hfold]; exact hrest.1, ?_⟩
    rw [hfold, hrest.2, hq.2]
    simp

/-- C8: the deferred queue is a LIFO — `queue_io` pushes each parked
    request at the head of the list; `__flush_deferred_io` detaches the
    whole list in one step and resubmits the entries in list order, so for
    every arrival sequence the replay order is exactly the reverse of the
    arrival order and the deferred list is empty afterwards. -/
theorem deferred_lifo_spec (md : mapped_device) (xs : List (BufferHead × Nat))
    (h1 : md.dm_active = false) (h2 : md.deferred = []) :
    (∀ (m2 : mapped_device) (bh : BufferHead) (rw : Nat),
      m2.dm_active = false →
      (queue_io m2 bh rw true).2.deferred =
        ({ bh := bh, rw := rw } : deferred_io) :: m2.deferred) ∧
    (__flush_deferred_io (enqueue_all md xs)).2 =
      (xs.map (fun a => (a.2, a.1))).reverse ∧
    (__flush_deferred_io (enqueue_all md xs)).1.deferred = [] := by
  refine ⟨?_, ?_, ?_⟩
  · intro m2 bh rw hm
    unfold queue_io
    simp [hm]
  · have hd := (enqueue_all_deferred xs md h1).2
    unfold __flush_deferred_io
    rw [hd, h2]
    simp [List.map_reverse]
  · rfl

/-- C8 witness: two requests parked on a blank (inactive, empty-queue)
    device replay in reverse order and leave the queue empty. -/
theorem deferred_lifo_witness :
    (blank_device 9).dm_active = false ∧ (blank_device 9).deferred = [] ∧
    (__flush_deferred_io (enqueue_all (blank_device 9)
      [(bh_s 1, 0), (bh_s 2, 1)])).2 = [(1, bh_s 2), (0, bh_s 1)] ∧
    (__flush_deferred_io (enqueue_all (blank_device 9)
      [(bh_s 1, 0), (bh_s 2, 1)])).1.deferred = [] := by
  have h := deferred_lifo_spec (blank_device 9) [(bh_s 1, 0), (bh_s 2, 1)]
    rfl rfl
  refine ⟨rfl, rfl, ?_, h.2.2⟩
  rw [h.2.1]
  rfl

/- ================================================================== -/
/- C9                                                                  -/
/- ================================================================== -/

/-- C9: `dm_activate` fails with `-EINVAL` on a zero-target table and with
    `-EPERM` on an already-active device, in both cases changing nothing;
    otherwise it binds the table, sets the advertised block size to
    `(last_high + 1) / 2` KB and the hardware sector size from the table,
    sets `DM_ACTIVE`, flushes the deferred queue (replaying every old
    entry) and registers the device node. -/
theorem dm_activate_spec (arrs : size_arrays) (md : mapped_device)
    (t : dm_table) :
    (t.highs.length = 0 →
      dm_activate arrs md t =
        { ret := -EINVAL, md := md, arrs := arrs, registered := false,
          replayed := [] }) ∧
    (t.highs.length ≠ 0 → md.dm_active = true →
      dm_activate arrs md t =
        { ret := -EPERM, md := md, arrs := arrs, registered := false,
          replayed := [] }) ∧
    (t.highs.length ≠ 0 → md.dm_active = false →
      (dm_activate arrs md t).ret = 0 ∧
      (dm_activate arrs md t).md =
        { md with map := some t, dm_active := true, deferred := [] } ∧
      (dm_activate arrs md t).arrs.block_size md.dev_minor =
        (t.highs.getD (t.highs.length - 1) 0 + 1) / 2 ∧
      (dm_activate arrs md t).arrs.hardsect_size md.dev_minor =
        t.hardsect_size ∧
      (dm_activate arrs md t).arrs.blksize_size md.dev_minor = BLOCK_SIZE ∧
      (dm_activate arrs md t).registered = true ∧
      (dm_activate arrs md t).replayed =
        md.deferred.map (fun d => (d.rw, d.bh))) := by
  refine ⟨?_, ?_, ?_⟩
  · intro h
    unfold dm_activate
    rw [if_pos h]
  · intro h ha
    unfold dm_activate
    rw [if_neg h, if_pos ha]
  · intro h ha
    have he : dm_activate arrs md t =
        { ret := 0,
          md := { md with map := some t, dm_active := true, deferred := [] },
          arrs := { block_size := upd arrs.block_size md.dev_minor
                      ((t.highs.getD (t.highs.length - 1) 0 + 1) >>> 1),
                    blksize_size := upd arrs.blksize_size md.dev_minor
                      BLOCK_SIZE,
                    hardsect_size := upd arrs.hardsect_size md.dev_minor
                      t.hardsect_size },
          registered := true,
          replayed := md.deferred.map (fun d => (d.rw, d.bh)) } := by
      unfold dm_activate __bind __flush_deferred_io
      rw [if_neg h, if_neg (by simp [ha])]
    rw [he]
    refine ⟨rfl, rfl, ?_, ?_, ?_, rfl, rfl⟩
    · show upd arrs.block_size md.dev_minor
        ((t.highs.getD (t.highs.length - 1) 0 + 1) >>> 1) md.dev_minor = _
      simp [upd, Nat.shiftRight_eq_div_pow]
    · simp [upd]
    · simp [upd]

/- ================================================================== -/
/- C10                                                                 -/
/- ================================================================== -/

/-- C10: `dm_blk_open` succeeds exactly when the minor is in range, the
    registry slot is occupied and the device is `ACTIVE` (a Blank or
    Suspended device cannot be opened); every failure returns `-ENXIO`
    with the registry — hence every use-count — unchanged; a success
    raises the opened device's use-count by exactly one and touches no
    other slot. -/
theorem dm_blk_open_spec (devs : DevMap) (rdev : Nat) :
    ((dm_blk_open devs rdev).1 = 0 ↔
      (kdev_minor rdev < MAX_DEVICES ∧
        ∃ md, devs (kdev_minor rdev) = some md ∧ md.dm_active = true)) ∧
    ((dm_blk_open devs rdev).1 ≠ 0 → dm_blk_open devs rdev = (- ENXIO, devs)) ∧
    (∀ md, devs (kdev_minor rdev) = some md → md.dm_active = true →
      kdev_minor rdev < MAX_DEVICES →
      (dm_blk_open devs rdev).2 (kdev_minor rdev) =
        some { md with use_count := md.use_count + 1 } ∧
      ∀ j, j ≠ kdev_minor rdev → (dm_blk_open devs rdev).2 j = devs j) := by
  by_cases hm : MAX_DEVICES ≤ kdev_minor rdev
  · have he : dm_blk_open devs rdev = (- ENXIO, devs) := by
      unfold dm_blk_open
      simp [hm]
    refine ⟨?_, fun _ => he, ?_⟩
    · rw [he]
      constructor
      · intro h0
        have h0b : (- ENXIO : Int) = 0 := h0
        norm_num [ ENXIO] at h0b
      · rintro ⟨h1, -⟩
        omega
    · intro md _ _ hlt
      omega
  · have hlt : kdev_minor rdev < MAX_DEVICES := by omega
    cases hd : devs (kdev_minor rdev) with
    | none =>
      have he : dm_blk_open devs rdev = (- ENXIO, devs) := by
        unfold dm_blk_open
        simp [hm, hd]
      refine ⟨?_, fun _ => he, ?_⟩
      · rw [he]
        constructor
        · intro h0
          have h0b : (- ENXIO : Int) = 0 := h0
          norm_num [ ENXIO] at h0b
        · rintro ⟨-, md, hmd, -⟩
          exact Option.noConfusion hmd
      · intro md hmd
        exact Option.noConfusion hmd
    | some md0 =>
      by_cases hact : md0.dm_active = false
      · have he : dm_blk_open devs rdev = (- ENXIO, devs) := by
          unfold dm_blk_open
          simp [hm, hd, hact]
        refine ⟨?_, fun _ => he, ?_⟩
        · rw [he]
          constructor
          · intro h0
            have h0b : (- ENXIO : Int) = 0 := h0
            norm_num [ ENXIO] at h0b
          · rintro ⟨-, md, hmd, hma⟩
            injection hmd with hmd2
            subst hmd2
            rw [hact] at hma
            cases hma
        · intro md hmd hma
          injection hmd with hmd2
          subst hmd2
          rw [hact] at hma
          cases hma
      · have hact2 : md0.dm_active = true := by
          cases h : md0.dm_active
          · exact absurd h hact
          · rfl
        have he : dm_blk_open devs rdev =
            (0, upd devs (kdev_minor rdev)
              (some { md0 with use_count := md0.use_count + 1 })) := by
          unfold dm_blk_open
          simp [hm, hd, hact2]
        refine ⟨?_, ?_, ?_⟩
        · rw [he]
          exact ⟨fun _ => ⟨hlt, md0, rfl, hact2⟩, fun _ => rfl⟩
        · intro hne
          rw [he] at hne
          exact absurd rfl hne
        · intro md hmd hma _
          injection hmd with hmd2
          subst hmd2
          rw [he]
          constructor
          · simp [upd]
          · intro j hj
            simp [upd, hj]

end DeviceMapper
